import Mathlib

/-!
Verification of the snapshot/window/delta pipeline of the music_data
repository.  Each python source file that the claims touch is embedded as a
namespace of executable Lean definitions; timestamps are modelled as seconds
since the epoch (`Nat`), parse failures (`NaT`) as `none`, numeric metric
cells as `Option ℚ` (missing = `none`).  The theorems at the end of the file
settle the claims C1-C10 about these embeddings.
-/

set_option maxRecDepth 8000

namespace MusicData

/-! ### Generic list machinery shared by the embeddings

`sortByTs le` is a deterministic, stable comparison sort modelling pandas
`DataFrame.sort_values` (quicksort's tie order is unspecified in pandas; a
stable order is one faithful deterministic choice).  `dropDupKeepLast key`
models `DataFrame.drop_duplicates(subset=key, keep="last")`: a row survives
iff no later row has the same key, and surviving rows keep their order. -/

/-- Insert `r` into `l` after every element `x` with `le x r`. -/
def insertByTs (le : α → α → Bool) (r : α) : List α → List α
  | [] => [r]
  | x :: xs => if le x r then x :: insertByTs le r xs else r :: x :: xs

/-- Stable insertion sort by `le` (left-to-right fold, inserting after ties). -/
def sortByTs (le : α → α → Bool) (l : List α) : List α :=
  l.foldl (fun acc x => insertByTs le x acc) []

/-- Keep, in order, each row that has no later row with the same key. -/
def dropDupKeepLast [DecidableEq κ] (key : α → κ) : List α → List α
  | [] => []
  | x :: xs =>
    if ∃ y ∈ xs, key y = key x then dropDupKeepLast key xs
    else x :: dropDupKeepLast key xs

/-- Comparison of parsed timestamp cells used by `sort_values("timestamp")`:
`NaT` (`none`) sorts last (pandas `na_position="last"`). -/
def tsOrd : Option Nat → Option Nat → Bool
  | some a, some b => decide (a ≤ b)
  | some _, none => true
  | none, none => true
  | none, some _ => false

/-! Formatting helpers shared by the alert messages of
`spotify_stats_extended.py` (`f"{pct:+.3f}"`, `f"{int(x):,}"`) and
`youtube_dashboard.py` (`f"{pct*100:+.3f}"`). -/

/-- `int(x)` on a rational: truncation toward zero. -/
def truncInt (q : ℚ) : ℤ := q.num.tdiv q.den

/-- Three-digit zero-padded decimal. -/
def pad3 (n : Nat) : String :=
  if n < 10 then "00" ++ toString n
  else if n < 100 then "0" ++ toString n
  else toString n

/-- Round to the nearest integer, ties to even (the rounding of fixed-point
`"%.3f"` style rendering; the sub-half-thousandth binary-float artifacts of
the source are below the granularity of any claim). -/
def roundHalfEven (x : ℚ) : ℤ :=
  if x - ⌊x⌋ < 1 / 2 then ⌊x⌋
  else if 1 / 2 < x - ⌊x⌋ then ⌊x⌋ + 1
  else if ⌊x⌋ % 2 = 0 then ⌊x⌋ else ⌊x⌋ + 1

/-- `f"{q:+.3f}"`: explicit sign, then the magnitude with exactly three
decimal places. -/
def fmtSigned3 (q : ℚ) : String :=
  (if q < 0 then "-" else "+") ++
    (let m := (roundHalfEven (|q| * 1000)).toNat
     toString (m / 1000) ++ "." ++ pad3 (m % 1000))

/-- Thousands grouping of reversed digit characters (`i` counts digits
already emitted). -/
def commaGroup : Nat → List Char → List Char
  | _, [] => []
  | i, c :: cs =>
    if 0 < i ∧ i % 3 = 0 then ',' :: c :: commaGroup (i + 1) cs
    else c :: commaGroup (i + 1) cs

/-- `f"{n:,}"`: decimal rendering with thousands separators. -/
def commaFmt (n : ℤ) : String :=
  (if n < 0 then "-" else "") ++
    String.mk (commaGroup 0 (toString n.natAbs).data.reverse).reverse

end MusicData

namespace MusicData
namespace SpotifyDashboard

/-! ### src/spotify_dashboard.py

`save_history` persists timestamps with `strftime("%Y-%m-%dT%H:%M:%SZ")`
(second precision), so a persisted log row carries a second-resolution UTC
instant; `ts` is that instant as seconds since the epoch, `none` standing
for an unparsable cell (pandas `NaT` after `to_datetime(errors="coerce")`). -/

/-- One row of `spotify_stats.csv` as loaded by `load_history`. -/
structure SRow where
  artist_name : String
  artist_id : String
  ts : Option Nat
  followers : Option ℚ
  popularity : Option ℚ
  avg_top_track_pop : Option ℚ
  genres : String
  image_url : String
deriving DecidableEq

/-- Row order of `sort_values("timestamp")`. -/
def rle (a b : SRow) : Bool := tsOrd a.ts b.ts

/-- The dedup key of `drop_duplicates(subset=["artist_id","ts_min"])`:
`ts_min` is `timestamp.dt.floor("T")`, i.e. the minute floor. -/
def skey (a : SRow) : String × Option Nat := (a.artist_id, a.ts.map (· / 60))

/-- `upsert_snapshot` (lines 48-57): concatenate the loaded history with the
new row, sort by timestamp, drop duplicate `(artist_id, minute-floor)` keys
keeping the last, and persist the result. -/
def upsert_snapshot (log : List SRow) (row : SRow) : List SRow :=
  dropDupKeepLast skey (sortByTs rle (log ++ [row]))

/-- `filter_window` (lines 59-64): drop rows whose timestamp does not parse,
then keep rows with `start <= ts <= end` where `start = now - hours` and
`end = now` (both bounds inclusive). -/
def filter_window (rows : List SRow) (now hours : Nat) : List SRow :=
  (rows.filter (fun r => r.ts.isSome)).filter fun r =>
    match r.ts with
    | some t => decide (now - hours * 3600 ≤ t) && decide (t ≤ now)
    | none => false

end SpotifyDashboard
end MusicData

namespace MusicData
namespace SpotifyStatsExtended

/-! ### src/spotify_stats_extended.py -/

/-- One row of `spotify_stats.csv` as read by `roll_and_archive` and
`compute_window_alerts` (`pd.read_csv(..., on_bad_lines="skip")` followed by
`to_datetime(..., errors="coerce", utc=True)` on the timestamp column). -/
structure XRow where
  artist_name : String
  followers : Option ℚ
  popularity : Option ℚ
  genres : String
  spotify_url : String
  ts : Option Nat
deriving DecidableEq

/-- `ROLLING_DAYS = 90` (line 12). -/
def ROLLING_DAYS : Nat := 90

/-- `ALERT_THRESHOLD_PCT = 0.2` (line 13), i.e. 0.2 percent. -/
def ALERT_THRESHOLD_PCT : ℚ := 2 / 10

/-- `roll_and_archive` (lines 91-108): `cutoff = now - ROLLING_DAYS` days;
`old = df[ts < cutoff]` is appended to the archive, `recent = df[ts >= cutoff]`
overwrites the active log.  A `NaT` timestamp satisfies neither comparison.
Returns `(recent, old)`. -/
def roll_and_archive (rows : List XRow) (now : Nat) : List XRow × List XRow :=
  let cutoff := now - ROLLING_DAYS * 86400
  let old := rows.filter fun r =>
    match r.ts with
    | some t => decide (t < cutoff)
    | none => false
  let recent := rows.filter fun r =>
    match r.ts with
    | some t => decide (cutoff ≤ t)
    | none => false
  (recent, old)

/-- Row order for `w.sort_values("timestamp")`. -/
def xle (a b : XRow) : Bool := tsOrd a.ts b.ts

/-- The 24-hour window of `compute_window_alerts` (lines 118-119):
`w = df[df["timestamp"] >= now - 24h]` (no upper bound; `NaT` excluded). -/
def wrows (rows : List XRow) (now : Nat) : List XRow :=
  rows.filter fun r =>
    match r.ts with
    | some t => decide (now - 24 * 3600 ≤ t)
    | none => false

/-- The distinct artists of the window (the index of
`w.groupby("artist_name")`; pandas sorts the keys, whose order no claim
depends on). -/
def namesOf (w : List XRow) : List String := (w.map (·.artist_name)).dedup

/-- The rows of one artist, sorted by timestamp
(`w.sort_values("timestamp")` restricted to a group). -/
def groupSorted (a : String) (w : List XRow) : List XRow :=
  sortByTs xle (w.filter fun r => decide (r.artist_name = a))

/-- `earliest.loc[artist, "followers"]`: pandas `groupby(...).first()` takes
the first non-NA followers value of the timestamp-sorted group. -/
def firstFollowers (a : String) (w : List XRow) : Option ℚ :=
  (groupSorted a w).findSome? (·.followers)

/-- `latest.loc[artist, "followers"]`: `groupby(...).last()`, the last
non-NA followers value of the timestamp-sorted group. -/
def lastFollowers (a : String) (w : List XRow) : Option ℚ :=
  (groupSorted a w).reverse.findSome? (·.followers)

/-- The window percent change `(end - start) / start * 100`, undefined
(`none`) when the start value is missing, zero, or the end is missing. -/
def pctOf (s e : Option ℚ) : Option ℚ :=
  match s, e with
  | some sv, some ev => if sv = 0 then none else some ((ev - sv) / sv * 100)
  | _, _ => none

/-- The alert message line of `compute_window_alerts` (line 133):
`f"{artist}: {pct:+.3f}% in last 24h (followers {int(start):,} → {int(end):,})"`. -/
def mkMsg (artist : String) (pct s e : ℚ) : String :=
  artist ++ ": " ++ fmtSigned3 pct ++ "% in last 24h (followers " ++
    commaFmt (truncInt s) ++ " → " ++ commaFmt (truncInt e) ++ ")"

/-- The loop body of `compute_window_alerts` (lines 126-133) for one artist:
skip if the start is NA or zero or the end is NA, else alert iff
`abs(pct) >= threshold_pct`. -/
def alertStep (threshold_pct : ℚ) (artist : String) (s e : Option ℚ) :
    Option String :=
  match s, e with
  | some sv, some ev =>
    if sv = 0 then none
    else if threshold_pct ≤ |(ev - sv) / sv * 100| then
      some (mkMsg artist ((ev - sv) / sv * 100) sv ev)
    else none
  | _, _ => none

/-- `compute_window_alerts` (lines 110-134): restrict to the last 24 hours,
then run the per-artist loop over the grouped window. -/
def compute_window_alerts (rows : List XRow) (now : Nat) (threshold_pct : ℚ) :
    List String :=
  (namesOf (wrows rows now)).filterMap fun a =>
    alertStep threshold_pct a (firstFollowers a (wrows rows now))
      (lastFollowers a (wrows rows now))

/-- The raw-row stage of
`pd.read_csv(STATS_PATH, quotechar='"', engine="python", on_bad_lines="skip")`
(line 114, also line 95): with the python engine, a line with more fields
than the `w` header columns is a bad line and is skipped silently (a line
with fewer fields is kept and NaN-filled).  The call returns only the
surviving rows: no warning is emitted and no count of skipped rows exists in
its result. -/
def read_csv_skip (w : Nat) (rows : List (List String)) : List (List String) :=
  rows.filter fun row => decide (row.length ≤ w)

end SpotifyStatsExtended
end MusicData

namespace MusicData
namespace YouTubeDashboard

/-! ### src/youtube_dashboard.py -/

/-- One row of `youtube_channel_stats.csv` as loaded by `load_channels`
(`Int64` metric cells, so a cell is either an integer or NA). -/
structure CRow where
  artist_name : String
  channel_id : String
  channel_title : String
  subs : Option ℚ
  views : Option ℚ
  video_count : Option ℚ
  ts : Option Nat
deriving DecidableEq

/-- `ALERT_PCT = 0.10` (line 51). -/
def ALERT_PCT : ℚ := 1 / 10

/-- `filter_window` (lines 107-114): keep rows with
`start <= ts <= now_utc`, `start = now_utc - hours`; a `NaT` timestamp
satisfies neither comparison. -/
def filter_window (rows : List CRow) (now hours : Nat) : List CRow :=
  rows.filter fun r =>
    match r.ts with
    | some t => decide (now - hours * 3600 ≤ t) && decide (t ≤ now)
    | none => false

/-- `pct_change` (lines 116-122): `nan` when `first` is 0, `None` or `nan`,
else `(last - first) / first` (which is itself `nan` when `last` is `nan`). -/
def pct_change (first last : Option ℚ) : Option ℚ :=
  match first with
  | none => none
  | some f =>
    if f = 0 then none
    else
      match last with
      | some l => some ((l - f) / f)
      | none => none

/-- Row order for `wchan.sort_values("timestamp")`. -/
def cle (a b : CRow) : Bool := tsOrd a.ts b.ts

/-- `start_df`: `sorted_w.groupby("artist_name").head(1)`, the literal first
row of the sorted group, restricted to one artist; its `subs` cell. -/
def startSubs (a : String) (w : List CRow) : Option ℚ :=
  ((sortByTs cle (w.filter fun r => decide (r.artist_name = a))).head?).bind
    (·.subs)

/-- `end_df`: `sorted_w.groupby("artist_name").tail(1)`, the literal last row
of the sorted group, restricted to one artist; its `subs` cell. -/
def endSubs (a : String) (w : List CRow) : Option ℚ :=
  ((sortByTs cle (w.filter fun r => decide (r.artist_name = a))).getLast?).bind
    (·.subs)

/-- `g["subs_change"] = g["subs_end"] - g["subs_start"]` (line 307), with NA
propagation. -/
def subs_change (s e : Option ℚ) : Option ℚ :=
  match s, e with
  | some sv, some ev => some (ev - sv)
  | _, _ => none

/-- `g["subs_pct"] = pct_change(start, end) * 100` (line 309), with NA
propagation. -/
def subs_pct (s e : Option ℚ) : Option ℚ := (pct_change s e).map (· * 100)

/-- One entry of the alert banner (lines 205-212): rows with NA `pct` are
filtered out, an alert fires iff `abs(pct) >= ALERT_PCT / 100`, and the
message reads `f"{artist_name}: {pct*100:+.3f}%"`. -/
def ytAlertEntry (threshold : ℚ) (name : String) (s e : Option ℚ) :
    Option String :=
  match pct_change s e with
  | none => none
  | some p =>
    if threshold / 100 ≤ |p| then some (name ++ ": " ++ fmtSigned3 (p * 100) ++ "%")
    else none

end YouTubeDashboard
end MusicData

namespace MusicData
namespace YouTubeStatsExtended

/-! ### src/youtube_stats_extended.py -/

/-- `RETENTION_DAYS = 90` (line 23). -/
def RETENTION_DAYS : Nat := 90

/-- One CSV row of `youtube_channel_stats.csv` / `youtube_video_stats.csv`
inside `cap_and_archive`: the parsed timestamp cell
(`to_datetime(errors="coerce")`, `none` = `NaT`) plus the remaining cells. -/
structure GRow where
  ts : Option Nat
  rest : List String
deriving DecidableEq

/-- `cap_and_archive` (lines 127-150): drop rows whose timestamp did not
parse (`dropna`), split at `cutoff = now - RETENTION_DAYS` days, append the
old rows to the dated archive, overwrite the active log with the kept rows,
and return `(len(keep), len(old))`.  The result is
`(new active log, archive after append, kept_count, archived_count)`. -/
def cap_and_archive (rows : List GRow) (archive : List GRow) (now : Nat) :
    List GRow × List GRow × Nat × Nat :=
  let parsed := rows.filter (·.ts.isSome)
  let cutoff := now - RETENTION_DAYS * 86400
  let keep := parsed.filter fun r =>
    match r.ts with
    | some t => decide (cutoff ≤ t)
    | none => false
  let old := parsed.filter fun r =>
    match r.ts with
    | some t => decide (t < cutoff)
    | none => false
  (keep, archive ++ old, keep.length, old.length)

end YouTubeStatsExtended
end MusicData

namespace MusicData
namespace CleanSpotifyCsv

/-! ### src/clean_spotify_csv.py -/

/-- `expected_columns = 5` (line 6). -/
def expected_columns : Nat := 5

/-- The row filter loop (lines 12-16), started at line number `i`: a row with
exactly `expected_columns` fields is written through unchanged, any other row
is skipped and a warning line is emitted instead.  Returns
`(rows written, warning lines)`. -/
def cleanAux : Nat → List (List String) → List (List String) × List String
  | _, [] => ([], [])
  | i, row :: rest =>
    let p := cleanAux (i + 1) rest
    if row.length = expected_columns then (row :: p.1, p.2)
    else
      (p.1, ("Skipping line " ++ toString i ++ ": " ++ toString row.length ++
        " fields instead of " ++ toString expected_columns) :: p.2)

/-- The whole read (`enumerate(reader, start=1)`). -/
def cleanPass (rows : List (List String)) : List (List String) × List String :=
  cleanAux 1 rows

end CleanSpotifyCsv
end MusicData

namespace MusicData
namespace Timestamps

/-! ### Persisted timestamp formats

`save_history`/`normalize_csv` (spotify_dashboard.py, lines 43-46 and 29-34)
persist `strftime("%Y-%m-%dT%H:%M:%SZ")`; `now_utc_str`
(spotify_stats_extended.py, lines 39-40) and the fetch loop of
get_spotify_stats.py (line 35) persist `strftime("%Y-%m-%d %H:%M:%S")`.
A wall-clock instant is a `DT` record of calendar fields; chronological
order of UTC instants is lexicographic order on those fields. -/

/-- A broken-down UTC wall-clock instant. -/
structure DT where
  year : Nat
  month : Nat
  day : Nat
  hour : Nat
  minute : Nat
  second : Nat
deriving DecidableEq

/-- The ASCII digit character of `n < 10`. -/
def digitChar (n : Nat) : Char := Char.ofNat (48 + n)

/-- Two-digit zero-padded field (`%m`, `%d`, `%H`, `%M`, `%S`). -/
def pad2 (n : Nat) : List Char := [digitChar (n / 10), digitChar (n % 10)]

/-- Four-digit zero-padded year (`%Y`). -/
def pad4 (n : Nat) : List Char := pad2 (n / 100) ++ pad2 (n % 100)

/-- `strftime("%Y-%m-%dT%H:%M:%SZ")`, the format written by
`save_history` and `normalize_csv`. -/
def fmtIsoZ (t : DT) : List Char :=
  pad4 t.year ++ '-' :: pad2 t.month ++ '-' :: pad2 t.day ++
    'T' :: pad2 t.hour ++ ':' :: pad2 t.minute ++ ':' :: pad2 t.second ++ ['Z']

/-- `strftime("%Y-%m-%d %H:%M:%S")`, the format written by `now_utc_str` and
by the fetch loop of get_spotify_stats.py — no `Z`, no offset. -/
def fmtSpace (t : DT) : List Char :=
  pad4 t.year ++ '-' :: pad2 t.month ++ '-' :: pad2 t.day ++
    ' ' :: pad2 t.hour ++ ':' :: pad2 t.minute ++ ':' :: pad2 t.second

/-- Lexicographic (textual) order on strings, by code point. -/
def strLt : List Char → List Char → Bool
  | [], [] => false
  | [], _ :: _ => true
  | _ :: _, [] => false
  | a :: as, b :: bs =>
    if a.toNat < b.toNat then true
    else if b.toNat < a.toNat then false
    else strLt as bs

/-- Chronological (calendar-lexicographic) order on instants. -/
def dtLt (a b : DT) : Bool :=
  if a.year < b.year then true
  else if b.year < a.year then false
  else if a.month < b.month then true
  else if b.month < a.month then false
  else if a.day < b.day then true
  else if b.day < a.day then false
  else if a.hour < b.hour then true
  else if b.hour < a.hour then false
  else if a.minute < b.minute then true
  else if b.minute < a.minute then false
  else decide (a.second < b.second)

/-- Calendar validity (what `strftime` can receive from a real datetime). -/
abbrev valid (t : DT) : Prop :=
  t.year ≤ 9999 ∧ 1 ≤ t.month ∧ t.month ≤ 12 ∧ 1 ≤ t.day ∧ t.day ≤ 31 ∧
    t.hour < 24 ∧ t.minute < 60 ∧ t.second < 60

end Timestamps
end MusicData

namespace MusicData

/-! ### Facts about `insertByTs`, `sortByTs`, `dropDupKeepLast` -/

theorem mem_insertByTs {le : α → α → Bool} {r y : α} :
    ∀ {l : List α}, y ∈ insertByTs le r l ↔ y = r ∨ y ∈ l
  | [] => by simp [insertByTs]
  | x :: xs => by
    by_cases h : le x r = true
    · simp only [insertByTs, if_pos h, List.mem_cons, mem_insertByTs (l := xs)]
      tauto
    · simp only [insertByTs, if_neg h, List.mem_cons]

theorem mem_foldl_insertByTs {le : α → α → Bool} {y : α} :
    ∀ (l acc : List α),
      y ∈ List.foldl (fun acc x => insertByTs le x acc) acc l ↔ y ∈ acc ∨ y ∈ l
  | [], acc => by simp
  | x :: xs, acc => by
    rw [List.foldl_cons, mem_foldl_insertByTs xs, mem_insertByTs]
    simp only [List.mem_cons]
    tauto

theorem mem_sortByTs {le : α → α → Bool} {y : α} {l : List α} :
    y ∈ sortByTs le l ↔ y ∈ l := by
  rw [sortByTs, mem_foldl_insertByTs]
  simp

theorem pairwise_insertByTs {le : α → α → Bool}
    (htot : ∀ a b, le a b = true ∨ le b a = true)
    (htrans : ∀ a b c, le a b = true → le b c = true → le a c = true)
    {r : α} :
    ∀ {l : List α}, l.Pairwise (fun a b => le a b = true) →
      (insertByTs le r l).Pairwise (fun a b => le a b = true)
  | [], _ => by simp [insertByTs]
  | x :: xs, h => by
    rcases List.pairwise_cons.mp h with ⟨hx, hxs⟩
    by_cases hle : le x r = true
    · rw [insertByTs, if_pos hle]
      refine List.pairwise_cons.mpr ⟨?_, pairwise_insertByTs htot htrans hxs⟩
      intro y hy
      rcases mem_insertByTs.mp hy with rfl | hy
      · exact hle
      · exact hx y hy
    · rw [insertByTs, if_neg hle]
      have hrx : le r x = true := (htot x r).resolve_left hle
      refine List.pairwise_cons.mpr ⟨?_, h⟩
      intro y hy
      rcases List.mem_cons.mp hy with rfl | hy
      · exact hrx
      · exact htrans r x y hrx (hx y hy)

theorem pairwise_foldl_insertByTs {le : α → α → Bool}
    (htot : ∀ a b, le a b = true ∨ le b a = true)
    (htrans : ∀ a b c, le a b = true → le b c = true → le a c = true) :
    ∀ (l acc : List α), acc.Pairwise (fun a b => le a b = true) →
      (List.foldl (fun acc x => insertByTs le x acc) acc l).Pairwise
        (fun a b => le a b = true)
  | [], _, h => h
  | x :: xs, acc, h =>
    pairwise_foldl_insertByTs htot htrans xs _ (pairwise_insertByTs htot htrans h)

theorem sorted_sortByTs {le : α → α → Bool}
    (htot : ∀ a b, le a b = true ∨ le b a = true)
    (htrans : ∀ a b c, le a b = true → le b c = true → le a c = true)
    (l : List α) :
    (sortByTs le l).Pairwise (fun a b => le a b = true) :=
  pairwise_foldl_insertByTs htot htrans l [] (by simp)

theorem insertByTs_append {le : α → α → Bool} {r : α} :
    ∀ {X Y : List α}, (∀ x ∈ X, le x r = true) → (∀ y ∈ Y, le y r = false) →
      insertByTs le r (X ++ Y) = X ++ r :: Y
  | [], [], _, _ => by simp [insertByTs]
  | [], y :: ys, _, hY => by
    have : le y r = false := hY y (by simp)
    simp [insertByTs, this]
  | x :: X, Y, hX, hY => by
    have hx : le x r = true := hX x (by simp)
    have ih := @insertByTs_append _ le r X Y
      (fun a ha => hX a (by simp [ha])) hY
    show insertByTs le r (x :: (X ++ Y)) = x :: (X ++ r :: Y)
    rw [insertByTs, if_pos hx, ih]

theorem sortByTs_aux_of_pairwise {le : α → α → Bool} :
    ∀ (l acc : List α), (acc ++ l).Pairwise (fun a b => le a b = true) →
      List.foldl (fun acc x => insertByTs le x acc) acc l = acc ++ l
  | [], acc, _ => by simp
  | x :: xs, acc, h => by
    have hacc : ∀ a ∈ acc, le a x = true := by
      intro a ha
      have := (List.pairwise_append.mp h).2.2 a ha x (by simp)
      exact this
    have hins : insertByTs le x acc = acc ++ [x] := by
      have := @insertByTs_append _ le x acc []
        hacc (by simp)
      simpa using this
    rw [List.foldl_cons, hins, sortByTs_aux_of_pairwise xs (acc ++ [x])
      (by simpa using h)]
    simp

theorem sortByTs_of_pairwise {le : α → α → Bool} {l : List α}
    (h : l.Pairwise (fun a b => le a b = true)) : sortByTs le l = l := by
  have := @sortByTs_aux_of_pairwise _ le l [] (by simpa using h)
  simpa [sortByTs] using this

theorem sortByTs_append_single {le : α → α → Bool} (l : List α) (r : α) :
    sortByTs le (l ++ [r]) = insertByTs le r (sortByTs le l) := by
  simp [sortByTs, List.foldl_append]

theorem insertByTs_split {le : α → α → Bool}
    (htrans : ∀ a b c, le a b = true → le b c = true → le a c = true) {r : α} :
    ∀ {l : List α}, l.Pairwise (fun a b => le a b = true) →
      ∃ X Y, insertByTs le r l = X ++ r :: Y ∧ (∀ x ∈ X, le x r = true) ∧
        (∀ y ∈ Y, le y r = false) ∧ X ++ Y = l
  | [], _ => ⟨[], [], by simp [insertByTs], by simp, by simp, by simp⟩
  | x :: xs, h => by
    rcases List.pairwise_cons.mp h with ⟨hx, hxs⟩
    by_cases hle : le x r = true
    · rcases insertByTs_split htrans hxs with ⟨X, Y, hEq, hX, hY, hXY⟩
      refine ⟨x :: X, Y, ?_, ?_, hY, by simp [hXY]⟩
      · simp [insertByTs, hle, hEq]
      · intro a ha
        rcases List.mem_cons.mp ha with rfl | ha
        · exact hle
        · exact hX a ha
    · refine ⟨[], x :: xs, by simp [insertByTs, hle], by simp, ?_, by simp⟩
      intro y hy
      rcases List.mem_cons.mp hy with rfl | hy
      · exact Bool.eq_false_iff.mpr hle
      · by_contra hcon
        have hyr : le y r = true := by
          cases hyt : le y r
          · exact absurd hyt hcon
          · rfl
        exact hle (htrans x y r (hx y hy) hyr)

theorem dropDupKeepLast_sublist [DecidableEq κ] (key : α → κ) :
    ∀ l : List α, (dropDupKeepLast key l).Sublist l
  | [] => by simp [dropDupKeepLast]
  | x :: xs => by
    by_cases h : ∃ y ∈ xs, key y = key x
    · rw [dropDupKeepLast, if_pos h]
      exact (dropDupKeepLast_sublist key xs).cons x
    · rw [dropDupKeepLast, if_neg h]
      exact (dropDupKeepLast_sublist key xs).cons₂ x

theorem mem_dropDupKeepLast [DecidableEq κ] {key : α → κ} {l : List α} {y : α}
    (h : y ∈ dropDupKeepLast key l) : y ∈ l :=
  (dropDupKeepLast_sublist key l).subset h

theorem dropDupKeepLast_pairwise_keys [DecidableEq κ] (key : α → κ) :
    ∀ l : List α, (dropDupKeepLast key l).Pairwise (fun a b => key a ≠ key b)
  | [] => by simp [dropDupKeepLast]
  | x :: xs => by
    by_cases h : ∃ y ∈ xs, key y = key x
    · rw [dropDupKeepLast, if_pos h]
      exact dropDupKeepLast_pairwise_keys key xs
    · rw [dropDupKeepLast, if_neg h]
      refine List.pairwise_cons.mpr ⟨?_, dropDupKeepLast_pairwise_keys key xs⟩
      intro y hy hxy
      exact h ⟨y, mem_dropDupKeepLast hy, hxy.symm⟩

theorem dropDupKeepLast_of_pairwise [DecidableEq κ] {key : α → κ} :
    ∀ {l : List α}, l.Pairwise (fun a b => key a ≠ key b) →
      dropDupKeepLast key l = l
  | [], _ => rfl
  | x :: xs, h => by
    rcases List.pairwise_cons.mp h with ⟨hx, hxs⟩
    have hno : ¬ ∃ y ∈ xs, key y = key x := by
      rintro ⟨y, hy, hk⟩
      exact hx y hy hk.symm
    rw [dropDupKeepLast, if_neg hno, dropDupKeepLast_of_pairwise hxs]

theorem dropDupKeepLast_append [DecidableEq κ] (key : α → κ) :
    ∀ (A B : List α), ∃ A', dropDupKeepLast key (A ++ B) =
      A' ++ dropDupKeepLast key B ∧ A'.Sublist A
  | [], B => ⟨[], by simp, by simp⟩
  | x :: A, B => by
    rcases dropDupKeepLast_append key A B with ⟨A', hEq, hSub⟩
    by_cases h : ∃ y ∈ A ++ B, key y = key x
    · refine ⟨A', ?_, hSub.cons x⟩
      rw [List.cons_append, dropDupKeepLast, if_pos h, hEq]
    · refine ⟨x :: A', ?_, hSub.cons₂ x⟩
      rw [List.cons_append, dropDupKeepLast, if_neg h, hEq]
      simp

theorem dropDupKeepLast_exists_key [DecidableEq κ] (key : α → κ) :
    ∀ (l : List α), ∀ y ∈ l, ∃ z ∈ dropDupKeepLast key l, key z = key y := by
  intro l
  induction l with
  | nil => intro y hy; exact absurd hy (List.not_mem_nil y)
  | cons x xs ih =>
    intro y hy
    by_cases h : ∃ y' ∈ xs, key y' = key x
    · rw [dropDupKeepLast, if_pos h]
      rcases List.mem_cons.mp hy with rfl | hy
      · rcases h with ⟨y', hy', hk⟩
        rcases ih y' hy' with ⟨z, hz, hzk⟩
        exact ⟨z, hz, hzk.trans hk⟩
      · exact ih y hy
    · rw [dropDupKeepLast, if_neg h]
      rcases List.mem_cons.mp hy with rfl | hy
      · exact ⟨y, by simp, rfl⟩
      · rcases ih y hy with ⟨z, hz, hzk⟩
        exact ⟨z, by simp [hz], hzk⟩

theorem dropDupKeepLast_count [DecidableEq κ] (key : α → κ) :
    ∀ (l : List α) (k : κ),
      ((dropDupKeepLast key l).filter fun x => decide (key x = k)).length ≤ 1
  | [], _ => by simp [dropDupKeepLast]
  | x :: xs, k => by
    by_cases h : ∃ y ∈ xs, key y = key x
    · rw [dropDupKeepLast, if_pos h]
      exact dropDupKeepLast_count key xs k
    · rw [dropDupKeepLast, if_neg h]
      by_cases hk : key x = k
      · have hnil : (dropDupKeepLast key xs).filter
            (fun x => decide (key x = k)) = [] := by
          rw [List.filter_eq_nil_iff]
          intro a ha
          simp only [decide_eq_true_eq]
          intro hak
          exact h ⟨a, mem_dropDupKeepLast ha, by rw [hak, hk]⟩
        simp [List.filter_cons, hk, hnil]
      · simp only [List.filter_cons, decide_eq_true_eq, hk, if_false]
        exact dropDupKeepLast_count key xs k

theorem dropDupKeepLast_max_of_sorted {le : α → α → Bool} [DecidableEq κ]
    (key : α → κ) (hrefl : ∀ a, le a a = true) :
    ∀ (l : List α), l.Pairwise (fun a b => le a b = true) →
      ∀ x ∈ dropDupKeepLast key l, ∀ x' ∈ l, key x' = key x → le x' x = true := by
  intro l
  induction l with
  | nil => intro _ x hx; exact absurd hx (by simp [dropDupKeepLast])
  | cons x₀ xs ih =>
    intro h x hx x' hx' hk
    rcases List.pairwise_cons.mp h with ⟨hx₀, hxs⟩
    by_cases hdup : ∃ y ∈ xs, key y = key x₀
    · rw [dropDupKeepLast, if_pos hdup] at hx
      rcases List.mem_cons.mp hx' with rfl | hx'
      · exact hx₀ x (mem_dropDupKeepLast hx)
      · exact ih hxs x hx x' hx' hk
    · rw [dropDupKeepLast, if_neg hdup] at hx
      rcases List.mem_cons.mp hx with rfl | hxdd
      · rcases List.mem_cons.mp hx' with rfl | hx'
        · exact hrefl _
        · exact absurd ⟨x', hx', hk⟩ hdup
      · rcases List.mem_cons.mp hx' with rfl | hx'
        · exact absurd ⟨x, mem_dropDupKeepLast hxdd, hk.symm⟩ hdup
        · exact ih hxs x hxdd x' hx' hk

theorem dropDupKeepLast_keep_of_unique [DecidableEq κ] {key : α → κ} {r : α} :
    ∀ {X Y : List α}, (X ++ Y).Pairwise (fun a b => key a ≠ key b) →
      (∃ y ∈ Y, key y = key r) → dropDupKeepLast key (X ++ r :: Y) = X ++ Y
  | [], Y, h, hY => by
    have : ∃ y ∈ Y, key y = key r := hY
    rw [List.nil_append, dropDupKeepLast, if_pos this,
      dropDupKeepLast_of_pairwise (by simpa using h)]
    simp
  | x :: X, Y, h, hY => by
    rcases List.pairwise_cons.mp h with ⟨hx, hXY⟩
    have hno : ¬ ∃ y ∈ X ++ r :: Y, key y = key x := by
      rintro ⟨y, hy, hk⟩
      rcases List.mem_append.mp hy with hy | hy
      · exact hx y (List.mem_append_left Y hy) hk.symm
      · rcases List.mem_cons.mp hy with rfl | hy
        · rcases hY with ⟨y₀, hy₀, hk₀⟩
          exact hx y₀ (List.mem_append_right X hy₀) (hk₀.trans hk).symm
        · exact hx y (List.mem_append_right X hy) hk.symm
    rw [List.cons_append, dropDupKeepLast, if_neg hno,
      dropDupKeepLast_keep_of_unique hXY hY]
    simp

end MusicData

namespace MusicData
namespace SpotifyDashboard

theorem rle_refl : ∀ a : SRow, rle a a = true := by
  intro a
  cases h : a.ts <;> simp [rle, tsOrd, h]

theorem rle_total : ∀ a b : SRow, rle a b = true ∨ rle b a = true := by
  intro a b
  cases ha : a.ts <;> cases hb : b.ts <;> simp [rle, tsOrd, ha, hb] <;> omega

theorem rle_trans :
    ∀ a b c : SRow, rle a b = true → rle b c = true → rle a c = true := by
  intro a b c
  cases ha : a.ts <;> cases hb : b.ts <;> cases hc : c.ts <;>
      simp [rle, tsOrd, ha, hb, hc] <;> omega

/-- C1: after any `upsert_snapshot`, (i) every `(artist_id, minute-floor)` key
is carried by at most one row of the persisted log, (ii) every key present in
the input still has a surviving row, and (iii) a surviving row's `captured_at`
is at least that of every input row with the same key — so when two snapshots
share the entity and minute-floor but differ in seconds, the survivor is the
one with the latest `captured_at`. -/
theorem C1_upsert_minute_dedup (log : List SRow) (row : SRow) :
    (∀ k, ((upsert_snapshot log row).filter
        fun x => decide (skey x = k)).length ≤ 1) ∧
    (∀ x' ∈ log ++ [row],
        ∃ x ∈ upsert_snapshot log row, skey x = skey x') ∧
    (∀ x ∈ upsert_snapshot log row, ∀ x' ∈ log ++ [row],
        skey x' = skey x → ∀ t t', x.ts = some t → x'.ts = some t' → t' ≤ t) := by
  refine ⟨fun k => dropDupKeepLast_count skey _ k, ?_, ?_⟩
  · intro x' hx'
    exact dropDupKeepLast_exists_key skey _ x' (mem_sortByTs.mpr hx')
  · intro x hx x' hx' hk t t' hxt hx't
    have hs := sorted_sortByTs rle_total rle_trans (log ++ [row])
    have hmax := dropDupKeepLast_max_of_sorted skey rle_refl _ hs x hx x'
      (mem_sortByTs.mpr hx') hk
    simpa [rle, tsOrd, hxt, hx't] using hmax

/-- C1 witness: upserting a later-second snapshot of the same artist/minute
onto a one-row log keeps that later row, whose timestamp dominates. -/
theorem C1_upsert_minute_dedup_witness :
    (⟨"A", "idA", some 90, none, none, none, "", ""⟩ : SRow) ∈
        upsert_snapshot [⟨"A", "idA", some 60, none, none, none, "", ""⟩]
          ⟨"A", "idA", some 90, none, none, none, "", ""⟩ ∧
      (60 : Nat) ≤ 90 :=
  ⟨by decide,
    (C1_upsert_minute_dedup
        [⟨"A", "idA", some 60, none, none, none, "", ""⟩]
        ⟨"A", "idA", some 90, none, none, none, "", ""⟩).2.2
      ⟨"A", "idA", some 90, none, none, none, "", ""⟩ (by decide)
      ⟨"A", "idA", some 60, none, none, none, "", ""⟩ (by decide)
      (by decide) 90 60 rfl rfl⟩

/-- C5: upserting the same snapshot twice in succession yields exactly the
same persisted log as upserting it once. -/
theorem C5_upsert_idempotent (log : List SRow) (row : SRow) :
    upsert_snapshot (upsert_snapshot log row) row = upsert_snapshot log row := by
  obtain ⟨X, Y, hsplit, hX, hY, hXY⟩ :=
    insertByTs_split rle_trans (sorted_sortByTs rle_total rle_trans log)
      (r := row)
  have hS2 : sortByTs rle (log ++ [row]) = X ++ row :: Y := by
    rw [sortByTs_append_single, hsplit]
  have hSsorted : (X ++ row :: Y).Pairwise (fun a b => rle a b = true) := by
    rw [← hS2]; exact sorted_sortByTs rle_total rle_trans (log ++ [row])
  obtain ⟨X', hdd, hsubX'⟩ := dropDupKeepLast_append skey X (row :: Y)
  have hX' : ∀ x ∈ X', rle x row = true := fun x hx => hX x (hsubX'.subset hx)
  have hYdd : ∀ y ∈ dropDupKeepLast skey Y, rle y row = false :=
    fun y hy => hY y (mem_dropDupKeepLast hy)
  have hu1eq : upsert_snapshot log row = dropDupKeepLast skey (X ++ row :: Y) := by
    show dropDupKeepLast skey (sortByTs rle (log ++ [row])) = _
    rw [hS2]
  have hu1sorted : (upsert_snapshot log row).Pairwise (fun a b => rle a b = true) := by
    rw [hu1eq]
    exact hSsorted.sublist (dropDupKeepLast_sublist skey (X ++ row :: Y))
  have hu1keys : (upsert_snapshot log row).Pairwise (fun a b => skey a ≠ skey b) := by
    rw [hu1eq]
    exact dropDupKeepLast_pairwise_keys skey (X ++ row :: Y)
  have hround2 : upsert_snapshot (upsert_snapshot log row) row =
      dropDupKeepLast skey (insertByTs rle row (upsert_snapshot log row)) := by
    show dropDupKeepLast skey (sortByTs rle (upsert_snapshot log row ++ [row])) = _
    rw [sortByTs_append_single, sortByTs_of_pairwise hu1sorted]
  by_cases hq : ∃ y ∈ Y, skey y = skey row
  · have hddrY : dropDupKeepLast skey (row :: Y) = dropDupKeepLast skey Y := by
      rw [dropDupKeepLast, if_pos hq]
    have hu1 : upsert_snapshot log row = X' ++ dropDupKeepLast skey Y := by
      rw [hu1eq, hdd, hddrY]
    obtain ⟨y₀, hy₀, hy₀k⟩ := hq
    obtain ⟨z, hz, hzk⟩ := dropDupKeepLast_exists_key skey Y y₀ hy₀
    have hq' : ∃ y ∈ dropDupKeepLast skey Y, skey y = skey row :=
      ⟨z, hz, hzk.trans hy₀k⟩
    rw [hround2, hu1, insertByTs_append hX' hYdd,
      dropDupKeepLast_keep_of_unique (hu1 ▸ hu1keys) hq']
  · have hddrY : dropDupKeepLast skey (row :: Y) =
        row :: dropDupKeepLast skey Y := by
      rw [dropDupKeepLast, if_neg hq]
    have hu1 : upsert_snapshot log row = X' ++ row :: dropDupKeepLast skey Y := by
      rw [hu1eq, hdd, hddrY]
    have hX'r : ∀ x ∈ X' ++ [row], rle x row = true := by
      intro x hx
      rcases List.mem_append.mp hx with hx | hx
      · exact hX' x hx
      · rcases List.mem_singleton.mp hx with rfl
        exact rle_refl x
    have hins : insertByTs rle row (X' ++ row :: dropDupKeepLast skey Y) =
        X' ++ row :: row :: dropDupKeepLast skey Y := by
      have := @insertByTs_append _ rle row (X' ++ [row])
        (dropDupKeepLast skey Y) hX'r hYdd
      simpa using this
    have hkeys' : (X' ++ row :: dropDupKeepLast skey Y).Pairwise
        (fun a b => skey a ≠ skey b) := hu1 ▸ hu1keys
    have hq' : ∃ y ∈ row :: dropDupKeepLast skey Y, skey y = skey row :=
      ⟨row, by simp, rfl⟩
    rw [hround2, hu1, hins,
      dropDupKeepLast_keep_of_unique hkeys' hq']

end SpotifyDashboard
end MusicData

namespace MusicData

/-! ### Helper lemmas on filters -/

theorem length_filter_pos_neg (p q : α → Bool) :
    ∀ l : List α, (∀ x ∈ l, (p x = true ↔ ¬ q x = true)) →
      (l.filter p).length + (l.filter q).length = l.length
  | [], _ => by simp
  | x :: xs, h => by
    have hx := h x (by simp)
    have ih := length_filter_pos_neg p q xs fun y hy => h y (by simp [hy])
    cases hp : p x
    · have hq : q x = true := by
        rcases hx with ⟨_, h2⟩
        by_contra hq
        have := h2 (by simpa using hq)
        simp [hp] at this
      rw [List.filter_cons, List.filter_cons, hp, hq,
        if_neg Bool.false_ne_true, if_pos rfl]
      simp only [List.length_cons]
      omega
    · have hq : q x = false := by
        have := hx.mp hp
        simpa using this
      rw [List.filter_cons, List.filter_cons, hp, hq, if_pos rfl,
        if_neg Bool.false_ne_true]
      simp only [List.length_cons]
      omega

theorem filter_filter_of_imp (p s : α → Bool) :
    ∀ l : List α, (∀ x, p x = true → s x = true) →
      (l.filter s).filter p = l.filter p
  | [], _ => by simp
  | x :: xs, h => by
    have ih := filter_filter_of_imp p s xs h
    cases hs : s x
    · have hp : p x = false := by
        cases hp : p x
        · rfl
        · exact absurd (h x hp) (by simp [hs])
      simp [List.filter_cons, hs, hp, ih]
    · cases hp : p x <;> simp [List.filter_cons, hs, hp, ih]

/-- C3: both `filter_window` implementations keep exactly the rows whose
parsed timestamp lies in the closed interval `[now - hours, now]`: a row at
exactly `now - hours` is kept, a row one second earlier is dropped, and rows
with unparsable timestamps are dropped. -/
theorem C3_window_boundary (now hours : Nat) (hnow : hours * 3600 + 1 ≤ now) :
    (∀ (rows : List YouTubeDashboard.CRow) (r : YouTubeDashboard.CRow),
      (r ∈ YouTubeDashboard.filter_window rows now hours ↔
        r ∈ rows ∧ ∃ t, r.ts = some t ∧ now - hours * 3600 ≤ t ∧ t ≤ now) ∧
      (r ∈ rows → r.ts = some (now - hours * 3600) →
        r ∈ YouTubeDashboard.filter_window rows now hours) ∧
      (r.ts = some (now - hours * 3600 - 1) →
        r ∉ YouTubeDashboard.filter_window rows now hours)) ∧
    (∀ (rows : List SpotifyDashboard.SRow) (r : SpotifyDashboard.SRow),
      (r ∈ SpotifyDashboard.filter_window rows now hours ↔
        r ∈ rows ∧ ∃ t, r.ts = some t ∧ now - hours * 3600 ≤ t ∧ t ≤ now) ∧
      (r ∈ rows → r.ts = some (now - hours * 3600) →
        r ∈ SpotifyDashboard.filter_window rows now hours) ∧
      (r.ts = some (now - hours * 3600 - 1) →
        r ∉ SpotifyDashboard.filter_window rows now hours)) := by
  constructor
  · intro rows r
    have hmem : r ∈ YouTubeDashboard.filter_window rows now hours ↔
        r ∈ rows ∧ ∃ t, r.ts = some t ∧ now - hours * 3600 ≤ t ∧ t ≤ now := by
      rw [YouTubeDashboard.filter_window, List.mem_filter]
      cases hts : r.ts <;> simp [hts]
    refine ⟨hmem, ?_, ?_⟩
    · intro hr hts
      exact hmem.mpr ⟨hr, now - hours * 3600, hts, le_refl _, by omega⟩
    · intro hts hcon
      rcases (hmem.mp hcon).2 with ⟨t, ht, hge, _⟩
      rw [hts] at ht
      cases ht
      omega
  · intro rows r
    have hmem : r ∈ SpotifyDashboard.filter_window rows now hours ↔
        r ∈ rows ∧ ∃ t, r.ts = some t ∧ now - hours * 3600 ≤ t ∧ t ≤ now := by
      rw [SpotifyDashboard.filter_window, List.mem_filter, List.mem_filter]
      cases hts : r.ts <;> simp [hts]
    refine ⟨hmem, ?_, ?_⟩
    · intro hr hts
      exact hmem.mpr ⟨hr, now - hours * 3600, hts, le_refl _, by omega⟩
    · intro hts hcon
      rcases (hmem.mp hcon).2 with ⟨t, ht, hge, _⟩
      rw [hts] at ht
      cases ht
      omega

/-- C3 witness: with `now = 7200` and a two-hour window, a spotify row
captured at second `0 = now - hours` stays in the window, and a youtube row
at `3600` stays in a one-hour window. -/
theorem C3_window_boundary_witness :
    (⟨"A", "id", some 800, none, none, none, "", ""⟩ : SpotifyDashboard.SRow) ∈
        SpotifyDashboard.filter_window
          [⟨"A", "id", some 800, none, none, none, "", ""⟩] 8000 2 ∧
      (⟨"A", "c", "t", none, none, none, some 4400⟩ : YouTubeDashboard.CRow) ∈
        YouTubeDashboard.filter_window
          [⟨"A", "c", "t", none, none, none, some 4400⟩] 8000 1 :=
  ⟨(C3_window_boundary 8000 2 (by decide)).2
      [⟨"A", "id", some 800, none, none, none, "", ""⟩]
      ⟨"A", "id", some 800, none, none, none, "", ""⟩ |>.2.1 (by decide) rfl,
    (C3_window_boundary 8000 1 (by decide)).1
      [⟨"A", "c", "t", none, none, none, some 4400⟩]
      ⟨"A", "c", "t", none, none, none, some 4400⟩ |>.2.1 (by decide) rfl⟩

/-- C2: on a log whose rows all carry timestamps spanning the last 120 days,
the retention roll keeps exactly the rows at or after `now - 90` days as the
new active log, appends exactly the strictly older rows to the archive, and
the returned `kept_count + archived_count` equals the original row count.
Both the youtube (`cap_and_archive`) and spotify (`roll_and_archive`)
implementations are covered. -/
theorem C2_retention_partition (rows archive : List YouTubeStatsExtended.GRow)
    (srows : List SpotifyStatsExtended.XRow) (now : Nat)
    (hnow : 120 * 86400 ≤ now)
    (hspan : ∀ r ∈ rows, ∃ t, r.ts = some t ∧ now - 120 * 86400 ≤ t ∧ t ≤ now)
    (hspan2 : ∀ r ∈ srows, ∃ t, r.ts = some t ∧ now - 120 * 86400 ≤ t ∧ t ≤ now) :
    (YouTubeStatsExtended.cap_and_archive rows archive now).1 =
        (rows.filter fun r =>
          match r.ts with
          | some t => decide (now - 90 * 86400 ≤ t)
          | none => false) ∧
    (YouTubeStatsExtended.cap_and_archive rows archive now).2.1 =
        archive ++ (rows.filter fun r =>
          match r.ts with
          | some t => decide (t < now - 90 * 86400)
          | none => false) ∧
    (YouTubeStatsExtended.cap_and_archive rows archive now).2.2.1 +
        (YouTubeStatsExtended.cap_and_archive rows archive now).2.2.2 =
        rows.length ∧
    (SpotifyStatsExtended.roll_and_archive srows now).1 =
        (srows.filter fun r =>
          match r.ts with
          | some t => decide (now - 90 * 86400 ≤ t)
          | none => false) ∧
    (SpotifyStatsExtended.roll_and_archive srows now).2 =
        (srows.filter fun r =>
          match r.ts with
          | some t => decide (t < now - 90 * 86400)
          | none => false) ∧
    (SpotifyStatsExtended.roll_and_archive srows now).1.length +
        (SpotifyStatsExtended.roll_and_archive srows now).2.length =
        srows.length := by
  have himp1 : ∀ r : YouTubeStatsExtended.GRow,
      (match r.ts with
        | some t => decide (now - 90 * 86400 ≤ t)
        | none => false) = true → r.ts.isSome = true := by
    intro r h
    cases hts : r.ts
    · rw [hts] at h; simp at h
    · simp [hts]
  have himp2 : ∀ r : YouTubeStatsExtended.GRow,
      (match r.ts with
        | some t => decide (t < now - 90 * 86400)
        | none => false) = true → r.ts.isSome = true := by
    intro r h
    cases hts : r.ts
    · rw [hts] at h; simp at h
    · simp [hts]
  have hkeep : (YouTubeStatsExtended.cap_and_archive rows archive now).1 =
      (rows.filter fun r =>
        match r.ts with
        | some t => decide (now - 90 * 86400 ≤ t)
        | none => false) := by
    show (rows.filter (fun r => r.ts.isSome)).filter _ = _
    exact filter_filter_of_imp _ _ rows himp1
  have hold : (rows.filter (fun r => r.ts.isSome)).filter
      (fun r =>
        match r.ts with
        | some t => decide (t < now - 90 * 86400)
        | none => false) =
      rows.filter fun r =>
        match r.ts with
        | some t => decide (t < now - 90 * 86400)
        | none => false :=
    filter_filter_of_imp _ _ rows himp2
  have hcount : ∀ (β : Type) (l : List β) (ts : β → Option Nat),
      (∀ r ∈ l, (ts r).isSome) →
      (l.filter fun r =>
        match ts r with
        | some t => decide (now - 90 * 86400 ≤ t)
        | none => false).length +
      (l.filter fun r =>
        match ts r with
        | some t => decide (t < now - 90 * 86400)
        | none => false).length = l.length := by
    intro β l ts hl
    apply length_filter_pos_neg
    intro x hx
    rcases Option.isSome_iff_exists.mp (hl x hx) with ⟨t, ht⟩
    simp only [ht, decide_eq_true_eq]
    omega
  refine ⟨hkeep, ?_, ?_, rfl, rfl, ?_⟩
  · exact congrArg (fun l => archive ++ l) hold
  · have e1 : ((rows.filter fun r => r.ts.isSome).filter fun r =>
        match r.ts with
        | some t => decide (now - 90 * 86400 ≤ t)
        | none => false) =
        rows.filter fun r =>
          match r.ts with
          | some t => decide (now - 90 * 86400 ≤ t)
          | none => false :=
      filter_filter_of_imp _ _ rows himp1
    show ((rows.filter fun r => r.ts.isSome).filter fun r =>
        match r.ts with
        | some t => decide (now - 90 * 86400 ≤ t)
        | none => false).length +
      ((rows.filter fun r => r.ts.isSome).filter fun r =>
        match r.ts with
        | some t => decide (t < now - 90 * 86400)
        | none => false).length = rows.length
    rw [e1, hold]
    exact hcount _ rows (·.ts) fun r hr => by
      rcases hspan r hr with ⟨t, ht, _⟩
      simp [ht]
  · exact hcount _ srows (·.ts) fun r hr => by
      rcases hspan2 r hr with ⟨t, ht, _⟩
      simp [ht]

/-- C2 witness: at `now` = day 120, a youtube log with one row 119 days old
and one row 20 days old rolls to one kept and one archived row, and
similarly for a one-row spotify log. -/
theorem C2_retention_partition_witness :
    (YouTubeStatsExtended.cap_and_archive
        [⟨some 86400, []⟩, ⟨some (100 * 86400), []⟩] [] (120 * 86400)).2.2.1 +
      (YouTubeStatsExtended.cap_and_archive
        [⟨some 86400, []⟩, ⟨some (100 * 86400), []⟩] [] (120 * 86400)).2.2.2 =
      ([⟨some 86400, []⟩, ⟨some (100 * 86400), []⟩] :
        List YouTubeStatsExtended.GRow).length :=
  (C2_retention_partition
      [⟨some 86400, []⟩, ⟨some (100 * 86400), []⟩] []
      [⟨"A", none, none, "", "", some 86400⟩] (120 * 86400)
      (by decide)
      (by
        intro r hr
        rcases List.mem_cons.mp hr with rfl | hr
        · exact ⟨86400, rfl, by omega, by omega⟩
        · rcases List.mem_cons.mp hr with rfl | hr
          · exact ⟨100 * 86400, rfl, by omega, by omega⟩
          · exact absurd hr (List.not_mem_nil _))
      (by
        intro r hr
        rcases List.mem_cons.mp hr with rfl | hr
        · exact ⟨86400, rfl, by omega, by omega⟩
        · exact absurd hr (List.not_mem_nil _))).2.2.1

/-- C10: rows whose timestamp fails to parse are removed by the retention
roll without being archived: they are in neither the new active log nor the
newly archived rows (for both implementations), and the returned counts of
`cap_and_archive` add up to the number of parseable rows only. -/
theorem C10_unparsable_rows_dropped
    (rows archive : List YouTubeStatsExtended.GRow)
    (srows : List SpotifyStatsExtended.XRow) (now : Nat) :
    (∀ r : YouTubeStatsExtended.GRow, r.ts = none →
      r ∉ (YouTubeStatsExtended.cap_and_archive rows archive now).1 ∧
      r ∉ (YouTubeStatsExtended.cap_and_archive rows [] now).2.1) ∧
    (YouTubeStatsExtended.cap_and_archive rows archive now).2.2.1 +
        (YouTubeStatsExtended.cap_and_archive rows archive now).2.2.2 =
        (rows.filter fun r => r.ts.isSome).length ∧
    (∀ r : SpotifyStatsExtended.XRow, r.ts = none →
      r ∉ (SpotifyStatsExtended.roll_and_archive srows now).1 ∧
      r ∉ (SpotifyStatsExtended.roll_and_archive srows now).2) := by
  refine ⟨?_, ?_, ?_⟩
  · intro r hts
    constructor
    · intro hmem
      have := (List.mem_filter.mp hmem).2
      rw [hts] at this
      simp at this
    · intro hmem
      have hmem' : r ∈ (rows.filter fun r => r.ts.isSome).filter
          (fun r =>
            match r.ts with
            | some t => decide (t < now - YouTubeStatsExtended.RETENTION_DAYS * 86400)
            | none => false) := by
        simpa [YouTubeStatsExtended.cap_and_archive] using hmem
      have := (List.mem_filter.mp hmem').2
      rw [hts] at this
      simp at this
  · have hpart := length_filter_pos_neg
      (fun r : YouTubeStatsExtended.GRow =>
        match r.ts with
        | some t => decide (now - YouTubeStatsExtended.RETENTION_DAYS * 86400 ≤ t)
        | none => false)
      (fun r : YouTubeStatsExtended.GRow =>
        match r.ts with
        | some t => decide (t < now - YouTubeStatsExtended.RETENTION_DAYS * 86400)
        | none => false)
      (rows.filter fun r => r.ts.isSome)
      (by
        intro x hx
        have hs := (List.mem_filter.mp hx).2
        rcases Option.isSome_iff_exists.mp hs with ⟨t, ht⟩
        simp only [ht, decide_eq_true_eq]
        omega)
    exact hpart
  · intro r hts
    constructor
    · intro hmem
      have := (List.mem_filter.mp hmem).2
      rw [hts] at this
      simp at this
    · intro hmem
      have := (List.mem_filter.mp hmem).2
      rw [hts] at this
      simp at this

/-- C10 witness: a log holding one good row and one unparsable-timestamp row
rolls to counts covering only the good row, which the bad row survives in
neither partition. -/
theorem C10_unparsable_rows_dropped_witness :
    (⟨none, ["x"]⟩ : YouTubeStatsExtended.GRow) ∉
        (YouTubeStatsExtended.cap_and_archive
          [⟨none, ["x"]⟩, ⟨some (119 * 86400), []⟩] [] (120 * 86400)).1 ∧
      (⟨none, ["x"]⟩ : YouTubeStatsExtended.GRow) ∉
        (YouTubeStatsExtended.cap_and_archive
          [⟨none, ["x"]⟩, ⟨some (119 * 86400), []⟩] [] (120 * 86400)).2.1 :=
  (C10_unparsable_rows_dropped
      [⟨none, ["x"]⟩, ⟨some (119 * 86400), []⟩] []
      [] (120 * 86400)).1 ⟨none, ["x"]⟩ rfl

/-- C7 counterexample: the other read the claim cites,
`pd.read_csv(..., on_bad_lines="skip")` at spotify_stats_extended.py line
114, surfaces NO count of skipped rows to its caller: a read that skips one
corrupt (6-field) row of a 5-column log and a read that skips two corrupt
rows return identical values, so the caller cannot tell how many rows were
skipped — the claim's count conjunct fails for that read. -/
theorem C7_silent_skip_counterexample :
    SpotifyStatsExtended.read_csv_skip 5
        [["a", "1", "2", "u", "t"], ["b", "1", "2", "u", "t", "x"],
          ["c", "3", "4", "v", "s"]] =
      SpotifyStatsExtended.read_csv_skip 5
        [["a", "1", "2", "u", "t"], ["b", "1", "2", "u", "t", "x"],
          ["b", "1", "2", "u", "t", "x", "y"], ["c", "3", "4", "v", "s"]] ∧
    SpotifyStatsExtended.read_csv_skip 5
        [["a", "1", "2", "u", "t"], ["b", "1", "2", "u", "t", "x"],
          ["c", "3", "4", "v", "s"]] =
      [["a", "1", "2", "u", "t"], ["c", "3", "4", "v", "s"]] := by
  decide

/-- C7 (amended): every log read skips a corrupt row rather than aborting —
all well-formed rows are returned unchanged and in order, and one bad row
never blocks access to the rest.  The `clean_spotify_csv.py` read surfaces
the skipped rows to the caller, one warning line per skipped row (so a
single malformed 4-field row in a 5-column log is reported as 1 skipped
row), while the `pd.read_csv(on_bad_lines="skip")` read of
`spotify_stats_extended.py` skips its bad lines silently, surfacing no
count. -/
theorem C7_bad_rows_skipped :
    (∀ (i : Nat) (rows : List (List String)),
      (CleanSpotifyCsv.cleanAux i rows).1 =
          rows.filter (fun row => decide (row.length = 5)) ∧
      (CleanSpotifyCsv.cleanAux i rows).2.length =
          (rows.filter fun row => decide (row.length ≠ 5)).length) ∧
    (CleanSpotifyCsv.cleanPass
        [["a", "1", "2", "u", "t"], ["b", "1", "2", "u"],
          ["c", "3", "4", "v", "s"]]).1 =
      [["a", "1", "2", "u", "t"], ["c", "3", "4", "v", "s"]] ∧
    (CleanSpotifyCsv.cleanPass
        [["a", "1", "2", "u", "t"], ["b", "1", "2", "u"],
          ["c", "3", "4", "v", "s"]]).2.length = 1 ∧
    (∀ (w : Nat) (pre post : List (List String)) (bad : List String),
      w < bad.length →
      SpotifyStatsExtended.read_csv_skip w (pre ++ bad :: post) =
        SpotifyStatsExtended.read_csv_skip w pre ++
          SpotifyStatsExtended.read_csv_skip w post) := by
  have hgen : ∀ (rows : List (List String)) (i : Nat),
      (CleanSpotifyCsv.cleanAux i rows).1 =
          rows.filter (fun row => decide (row.length = 5)) ∧
      (CleanSpotifyCsv.cleanAux i rows).2.length =
          (rows.filter fun row => decide (row.length ≠ 5)).length := by
    intro rows
    induction rows with
    | nil => intro i; simp [CleanSpotifyCsv.cleanAux]
    | cons row rest ih =>
      intro i
      rcases ih (i + 1) with ⟨ih1, ih2⟩
      by_cases h : row.length = 5
      · rw [CleanSpotifyCsv.cleanAux]
        simp [CleanSpotifyCsv.expected_columns, h, List.filter_cons, ih1, ih2]
      · rw [CleanSpotifyCsv.cleanAux]
        simp [CleanSpotifyCsv.expected_columns, h, List.filter_cons, ih1, ih2]
  refine ⟨fun i rows => hgen rows i, by decide, by decide, ?_⟩
  intro w pre post bad hbad
  simp only [SpotifyStatsExtended.read_csv_skip, List.filter_append,
    List.filter_cons]
  rw [if_neg (by simpa using Nat.not_le.mpr hbad)]

/-- C7 witness: a corrupt 6-field line of a 5-column log does not block the
well-formed rows around it. -/
theorem C7_bad_rows_skipped_witness :
    SpotifyStatsExtended.read_csv_skip 5
        ([["a", "1", "2", "u", "t"]] ++ ["b", "1", "2", "u", "t", "x"] ::
          [["c", "3", "4", "v", "s"]]) =
      SpotifyStatsExtended.read_csv_skip 5 [["a", "1", "2", "u", "t"]] ++
        SpotifyStatsExtended.read_csv_skip 5 [["c", "3", "4", "v", "s"]] :=
  C7_bad_rows_skipped.2.2.2 5 [["a", "1", "2", "u", "t"]]
    [["c", "3", "4", "v", "s"]] ["b", "1", "2", "u", "t", "x"] (by decide)

/-- C4: a zero or missing first-in-window value makes the percent change an
explicit undefined value (`none`, never an exception and never a silent 0),
and neither alert evaluator (the spotify webhook loop, the youtube banner)
raises an alert for such an entity, whatever the threshold. -/
theorem C4_zero_or_missing_baseline_no_alert :
    (∀ e : Option ℚ,
      YouTubeDashboard.pct_change none e = none ∧
      YouTubeDashboard.pct_change (some 0) e = none ∧
      SpotifyStatsExtended.pctOf none e = none ∧
      SpotifyStatsExtended.pctOf (some 0) e = none) ∧
    (∀ (threshold : ℚ) (a : String) (e : Option ℚ),
      SpotifyStatsExtended.alertStep threshold a none e = none ∧
      SpotifyStatsExtended.alertStep threshold a (some 0) e = none ∧
      YouTubeDashboard.ytAlertEntry threshold a none e = none ∧
      YouTubeDashboard.ytAlertEntry threshold a (some 0) e = none) := by
  constructor
  · intro e
    cases e <;> simp [YouTubeDashboard.pct_change, SpotifyStatsExtended.pctOf]
  · intro threshold a e
    cases e <;>
      simp [SpotifyStatsExtended.alertStep, YouTubeDashboard.ytAlertEntry,
        YouTubeDashboard.pct_change]

end MusicData

namespace MusicData

/-- C6: the spotify alert evaluator equals the per-artist loop mapped over
the distinct artists of the 24h window; the loop emits a message for an
artist iff that artist's percent change is defined and its absolute value
is at least `threshold_pct`; and every emitted message contains the artist
identifier and the signed percent value rendered to three decimal places. -/
theorem C6_alert_iff_threshold :
    (∀ (rows : List SpotifyStatsExtended.XRow) (now : Nat) (threshold : ℚ),
      SpotifyStatsExtended.compute_window_alerts rows now threshold =
        (SpotifyStatsExtended.namesOf
            (SpotifyStatsExtended.wrows rows now)).filterMap
          fun a => SpotifyStatsExtended.alertStep threshold a
            (SpotifyStatsExtended.firstFollowers a
              (SpotifyStatsExtended.wrows rows now))
            (SpotifyStatsExtended.lastFollowers a
              (SpotifyStatsExtended.wrows rows now))) ∧
    (∀ (threshold : ℚ) (a : String) (s e : Option ℚ),
      (SpotifyStatsExtended.alertStep threshold a s e).isSome = true ↔
        ∃ p, SpotifyStatsExtended.pctOf s e = some p ∧ threshold ≤ |p|) ∧
    (∀ (threshold : ℚ) (a : String) (s e : Option ℚ) (m : String),
      SpotifyStatsExtended.alertStep threshold a s e = some m →
        a.data <:+: m.data ∧
        ∃ p, SpotifyStatsExtended.pctOf s e = some p ∧
          (fmtSigned3 p).data <:+: m.data) := by
  refine ⟨fun rows now θ => rfl, ?_, ?_⟩
  · intro θ a s e
    rcases s with _ | sv
    · simp [SpotifyStatsExtended.alertStep, SpotifyStatsExtended.pctOf]
    rcases e with _ | ev
    · simp [SpotifyStatsExtended.alertStep, SpotifyStatsExtended.pctOf]
    by_cases hz : sv = 0
    · simp [SpotifyStatsExtended.alertStep, SpotifyStatsExtended.pctOf, hz]
    by_cases hθ : θ ≤ |(ev - sv) / sv * 100|
    · simp [SpotifyStatsExtended.alertStep, SpotifyStatsExtended.pctOf, hz, hθ]
    · simp [SpotifyStatsExtended.alertStep, SpotifyStatsExtended.pctOf, hz, hθ]
  · intro θ a s e m hm
    rcases s with _ | sv
    · simp [SpotifyStatsExtended.alertStep] at hm
    rcases e with _ | ev
    · simp [SpotifyStatsExtended.alertStep] at hm
    by_cases hz : sv = 0
    · simp [SpotifyStatsExtended.alertStep, hz] at hm
    by_cases hθ : θ ≤ |(ev - sv) / sv * 100|
    · have hm' : m = SpotifyStatsExtended.mkMsg a ((ev - sv) / sv * 100) sv ev := by
        simp [SpotifyStatsExtended.alertStep, hz, hθ] at hm
        exact hm.symm
      subst hm'
      constructor
      · refine ⟨[], (": " ++ fmtSigned3 ((ev - sv) / sv * 100) ++
          "% in last 24h (followers " ++ commaFmt (truncInt sv) ++ " → " ++
          commaFmt (truncInt ev) ++ ")").data, ?_⟩
        simp [SpotifyStatsExtended.mkMsg, String.data_append, List.append_assoc]
      · refine ⟨(ev - sv) / sv * 100,
          by simp [SpotifyStatsExtended.pctOf, hz], ?_⟩
        refine ⟨(a ++ ": ").data, ("% in last 24h (followers " ++
          commaFmt (truncInt sv) ++ " → " ++ commaFmt (truncInt ev) ++
          ")").data, ?_⟩
        simp [SpotifyStatsExtended.mkMsg, String.data_append, List.append_assoc]
    · simp [SpotifyStatsExtended.alertStep, hz, hθ] at hm

/-- C6 witness: with threshold 1 and followers 100 → 150 an alert is emitted
and its message contains the artist identifier. -/
theorem C6_alert_iff_threshold_witness :
    ∃ m, SpotifyStatsExtended.alertStep 1 "A" (some 100) (some 150) = some m ∧
      "A".data <:+: m.data := by
  have hsome :
      (SpotifyStatsExtended.alertStep 1 "A" (some 100) (some 150)).isSome = true :=
    (C6_alert_iff_threshold.2.1 1 "A" (some 100) (some 150)).mpr
      ⟨50, by norm_num [SpotifyStatsExtended.pctOf], by norm_num⟩
  obtain ⟨m, hm⟩ := Option.isSome_iff_exists.mp hsome
  exact ⟨m, hm, (C6_alert_iff_threshold.2.2 1 "A" (some 100) (some 150) m hm).1⟩

/-- C8 counterexample: an entity with exactly one in-window row whose
followers value is `0` gets an UNDEFINED percent change (`none`), not the
defined 0 the claim asserts, in both implementations. -/
theorem C8_single_row_counterexample :
    (SpotifyStatsExtended.wrows
        [⟨"A", some 0, none, "", "", some 86400⟩] 86400).length = 1 ∧
    SpotifyStatsExtended.firstFollowers "A"
        (SpotifyStatsExtended.wrows
          [⟨"A", some 0, none, "", "", some 86400⟩] 86400) = some 0 ∧
    SpotifyStatsExtended.pctOf
        (SpotifyStatsExtended.firstFollowers "A"
          (SpotifyStatsExtended.wrows
            [⟨"A", some 0, none, "", "", some 86400⟩] 86400))
        (SpotifyStatsExtended.lastFollowers "A"
          (SpotifyStatsExtended.wrows
            [⟨"A", some 0, none, "", "", some 86400⟩] 86400)) = none ∧
    YouTubeDashboard.subs_pct (some 0) (some 0) = none := by
  refine ⟨rfl, rfl, ?_, ?_⟩
  · simp [SpotifyStatsExtended.pctOf, SpotifyStatsExtended.firstFollowers,
      SpotifyStatsExtended.lastFollowers, SpotifyStatsExtended.groupSorted,
      SpotifyStatsExtended.wrows, sortByTs, insertByTs]
  · simp [YouTubeDashboard.subs_pct, YouTubeDashboard.pct_change]

theorem sortByTs_singleton (le : α → α → Bool) (x : α) :
    sortByTs le [x] = [x] := rfl

/-- C8 (amended): for an entity with exactly one row in the window whose
metric value is present and nonzero, first and last coincide, the delta is
0, and the percent change is the defined value 0 (with a zero or missing
value the percent change is instead undefined, as C4 states). -/
theorem C8_single_row_amended (w : List SpotifyStatsExtended.XRow) (a : String)
    (r : SpotifyStatsExtended.XRow) (v : ℚ)
    (hw : w.filter (fun x => decide (x.artist_name = a)) = [r])
    (hv : r.followers = some v) (hvne : v ≠ 0) :
    SpotifyStatsExtended.firstFollowers a w = some v ∧
    SpotifyStatsExtended.lastFollowers a w = some v ∧
    SpotifyStatsExtended.pctOf (SpotifyStatsExtended.firstFollowers a w)
        (SpotifyStatsExtended.lastFollowers a w) = some 0 ∧
    (∀ (cw : List YouTubeDashboard.CRow) (c : YouTubeDashboard.CRow),
      cw.filter (fun x => decide (x.artist_name = a)) = [c] → c.subs = some v →
      YouTubeDashboard.startSubs a cw = some v ∧
      YouTubeDashboard.endSubs a cw = some v ∧
      YouTubeDashboard.subs_change (YouTubeDashboard.startSubs a cw)
          (YouTubeDashboard.endSubs a cw) = some 0 ∧
      YouTubeDashboard.subs_pct (YouTubeDashboard.startSubs a cw)
          (YouTubeDashboard.endSubs a cw) = some 0) := by
  have hgs : SpotifyStatsExtended.groupSorted a w = [r] := by
    rw [SpotifyStatsExtended.groupSorted, hw, sortByTs_singleton]
  have hfirst : SpotifyStatsExtended.firstFollowers a w = some v := by
    rw [SpotifyStatsExtended.firstFollowers, hgs]
    simp [List.findSome?, hv]
  have hlast : SpotifyStatsExtended.lastFollowers a w = some v := by
    rw [SpotifyStatsExtended.lastFollowers, hgs]
    simp [List.findSome?, hv]
  refine ⟨hfirst, hlast, ?_, ?_⟩
  · rw [hfirst, hlast]
    simp [SpotifyStatsExtended.pctOf, hvne]
  · intro cw c hcw hcs
    have hgs2 : sortByTs YouTubeDashboard.cle
        (cw.filter fun x => decide (x.artist_name = a)) = [c] := by
      rw [hcw, sortByTs_singleton]
    have hstart : YouTubeDashboard.startSubs a cw = some v := by
      rw [YouTubeDashboard.startSubs, hgs2]
      simp [hcs]
    have hend : YouTubeDashboard.endSubs a cw = some v := by
      rw [YouTubeDashboard.endSubs, hgs2]
      simp [hcs]
    refine ⟨hstart, hend, ?_, ?_⟩
    · rw [hstart, hend]
      simp [YouTubeDashboard.subs_change]
    · rw [hstart, hend]
      simp [YouTubeDashboard.subs_pct, YouTubeDashboard.pct_change, hvne]

/-- C8 witness: a single window row with followers 7 yields the defined
percent change 0. -/
theorem C8_single_row_amended_witness :
    SpotifyStatsExtended.pctOf
        (SpotifyStatsExtended.firstFollowers "A"
          [⟨"A", some 7, none, "", "", some 10⟩])
        (SpotifyStatsExtended.lastFollowers "A"
          [⟨"A", some 7, none, "", "", some 10⟩]) = some 0 :=
  (C8_single_row_amended [⟨"A", some 7, none, "", "", some 10⟩] "A"
      ⟨"A", some 7, none, "", "", some 10⟩ 7 (by decide) rfl
      (by norm_num)).2.2.1

end MusicData

namespace MusicData
namespace Timestamps

theorem strLt_cons_same (c : Char) (u v : List Char) :
    strLt (c :: u) (c :: v) = strLt u v := by
  simp [strLt]

theorem decide_congr {p q : Prop} [Decidable p] [Decidable q] (h : p ↔ q) :
    decide p = decide q := by
  by_cases hp : p
  · simp [hp, h.mp hp]
  · have hq : ¬ q := fun hq => hp (h.mpr hq)
    simp [hp, hq]

theorem strLt_append :
    ∀ (a b c d : List Char), a.length = b.length →
      strLt (a ++ c) (b ++ d) = (strLt a b || (decide (a = b) && strLt c d))
  | [], [], c, d, _ => by simp [strLt]
  | [], y :: bs, _, _, h => by simp at h
  | x :: as, [], _, _, h => by simp at h
  | x :: as, y :: bs, c, d, h => by
    have hlen : as.length = bs.length := by simpa using h
    by_cases hxy : x.toNat < y.toNat
    · simp [strLt, hxy]
    · by_cases hyx : y.toNat < x.toNat
      · have hne : ¬ x = y := by
          intro hcon
          rw [hcon] at hyx
          omega
        simp [strLt, hxy, hyx, hne]
      · have hts : x.toNat = y.toNat := by omega
        have hx : x = y := Char.ext (UInt32.ext hts)
        subst hx
        rw [List.cons_append, List.cons_append, strLt_cons_same,
          strLt_append as bs c d hlen, strLt_cons_same,
          show decide (x :: as = x :: bs) = decide (as = bs) from
            decide_congr (by simp)]
  termination_by a => a.length

theorem pad2_lt_fin :
    ∀ x y : Fin 100, strLt (pad2 x.val) (pad2 y.val) = decide (x.val < y.val) := by
  decide

theorem pad2_eq_fin :
    ∀ x y : Fin 100, pad2 x.val = pad2 y.val ↔ x.val = y.val := by
  decide

theorem pad2_lt (x y : Nat) (hx : x < 100) (hy : y < 100) :
    strLt (pad2 x) (pad2 y) = decide (x < y) :=
  pad2_lt_fin ⟨x, hx⟩ ⟨y, hy⟩

theorem pad2_eq (x y : Nat) (hx : x < 100) (hy : y < 100) :
    pad2 x = pad2 y ↔ x = y :=
  pad2_eq_fin ⟨x, hx⟩ ⟨y, hy⟩

theorem pad4_lt (x y : Nat) (hx : x ≤ 9999) (hy : y ≤ 9999) :
    strLt (pad4 x) (pad4 y) = decide (x < y) := by
  rw [pad4, pad4, strLt_append _ _ _ _ (by simp [pad2]),
    pad2_lt _ _ (by omega) (by omega), pad2_lt _ _ (by omega) (by omega),
    decide_congr (pad2_eq (x / 100) (y / 100) (by omega) (by omega))]
  rw [Bool.eq_iff_iff]
  simp only [Bool.or_eq_true, Bool.and_eq_true, decide_eq_true_eq]
  omega

theorem pad4_eq (x y : Nat) (hx : x ≤ 9999) (hy : y ≤ 9999) :
    pad4 x = pad4 y ↔ x = y := by
  rw [pad4, pad4]
  constructor
  · intro h
    rcases List.append_inj h (by simp [pad2]) with ⟨h1, h2⟩
    have e1 := (pad2_eq (x / 100) (y / 100) (by omega) (by omega)).mp h1
    have e2 := (pad2_eq (x % 100) (y % 100) (by omega) (by omega)).mp h2
    omega
  · rintro rfl
    rfl

theorem strLt_seg4 (x y : Nat) (ch : Char) (u v : List Char) :
    strLt (pad4 x ++ ch :: u) (pad4 y ++ ch :: v) =
      (strLt (pad4 x) (pad4 y) || (decide (pad4 x = pad4 y) && strLt u v)) := by
  rw [strLt_append _ _ _ _ (by simp [pad4, pad2]), strLt_cons_same]

theorem strLt_seg2 (x y : Nat) (ch : Char) (u v : List Char) :
    strLt (pad2 x ++ ch :: u) (pad2 y ++ ch :: v) =
      (strLt (pad2 x) (pad2 y) || (decide (pad2 x = pad2 y) && strLt u v)) := by
  rw [strLt_append _ _ _ _ (by simp [pad2]), strLt_cons_same]

theorem strLt_seg2Z (x y : Nat) :
    strLt (pad2 x ++ ['Z']) (pad2 y ++ ['Z']) = strLt (pad2 x) (pad2 y) := by
  rw [strLt_append _ _ _ _ (by simp [pad2])]
  simp [strLt]

theorem cascade_lt (x1 x2 : Nat) (bx : Bool) :
    (if x1 < x2 then true else if x2 < x1 then false else bx) =
      (decide (x1 < x2) || (decide (x1 = x2) && bx)) := by
  rcases Nat.lt_trichotomy x1 x2 with h | h | h
  · simp [h, Nat.ne_of_lt h]
  · subst h
    simp [Nat.lt_irrefl]
  · simp [h, Nat.lt_asymm h, (Nat.ne_of_lt h).symm]

theorem dtLt_cascade (a b : DT) :
    dtLt a b = (decide (a.year < b.year) || (decide (a.year = b.year) &&
      (decide (a.month < b.month) || (decide (a.month = b.month) &&
      (decide (a.day < b.day) || (decide (a.day = b.day) &&
      (decide (a.hour < b.hour) || (decide (a.hour = b.hour) &&
      (decide (a.minute < b.minute) || (decide (a.minute = b.minute) &&
      decide (a.second < b.second))))))))))) := by
  unfold dtLt
  rw [cascade_lt, cascade_lt, cascade_lt, cascade_lt, cascade_lt]

theorem strLt_fmtIsoZ (t1 t2 : DT) (h1 : valid t1) (h2 : valid t2) :
    strLt (fmtIsoZ t1) (fmtIsoZ t2) = dtLt t1 t2 := by
  obtain ⟨hy1, _, hmo1, _, hd1, hh1, hmi1, hs1⟩ := h1
  obtain ⟨hy2, _, hmo2, _, hd2, hh2, hmi2, hs2⟩ := h2
  simp only [fmtIsoZ, List.cons_append, List.append_assoc]
  rw [strLt_seg4, strLt_seg2, strLt_seg2, strLt_seg2,
    strLt_seg2, strLt_seg2Z,
    pad4_lt _ _ hy1 hy2,
    decide_congr (pad4_eq t1.year t2.year hy1 hy2),
    pad2_lt t1.month t2.month (by omega) (by omega),
    decide_congr (pad2_eq t1.month t2.month (by omega) (by omega)),
    pad2_lt t1.day t2.day (by omega) (by omega),
    decide_congr (pad2_eq t1.day t2.day (by omega) (by omega)),
    pad2_lt t1.hour t2.hour (by omega) (by omega),
    decide_congr (pad2_eq t1.hour t2.hour (by omega) (by omega)),
    pad2_lt t1.minute t2.minute (by omega) (by omega),
    decide_congr (pad2_eq t1.minute t2.minute (by omega) (by omega)),
    pad2_lt t1.second t2.second (by omega) (by omega),
    dtLt_cascade]

theorem strLt_fmtSpace (t1 t2 : DT) (h1 : valid t1) (h2 : valid t2) :
    strLt (fmtSpace t1) (fmtSpace t2) = dtLt t1 t2 := by
  obtain ⟨hy1, _, hmo1, _, hd1, hh1, hmi1, hs1⟩ := h1
  obtain ⟨hy2, _, hmo2, _, hd2, hh2, hmi2, hs2⟩ := h2
  simp only [fmtSpace, List.cons_append, List.append_assoc]
  rw [strLt_seg4, strLt_seg2, strLt_seg2, strLt_seg2,
    strLt_seg2,
    pad4_lt _ _ hy1 hy2,
    decide_congr (pad4_eq t1.year t2.year hy1 hy2),
    pad2_lt t1.month t2.month (by omega) (by omega),
    decide_congr (pad2_eq t1.month t2.month (by omega) (by omega)),
    pad2_lt t1.day t2.day (by omega) (by omega),
    decide_congr (pad2_eq t1.day t2.day (by omega) (by omega)),
    pad2_lt t1.hour t2.hour (by omega) (by omega),
    decide_congr (pad2_eq t1.hour t2.hour (by omega) (by omega)),
    pad2_lt t1.minute t2.minute (by omega) (by omega),
    decide_congr (pad2_eq t1.minute t2.minute (by omega) (by omega)),
    pad2_lt t1.second t2.second (by omega) (by omega),
    dtLt_cascade]

end Timestamps

/-- C9 counterexample: the timestamp persisted by `now_utc_str`
(spotify_stats_extended.py) and by get_spotify_stats.py is
`"%Y-%m-%d %H:%M:%S"`: it contains neither `Z` nor a numeric offset sign, so
not every persisted timestamp carries an explicit UTC designator. -/
theorem C9_no_utc_designator_counterexample :
    Timestamps.fmtSpace ⟨2026, 10, 12, 0, 0, 0⟩ =
        "2026-10-12 00:00:00".data ∧
      'Z' ∉ Timestamps.fmtSpace ⟨2026, 10, 12, 0, 0, 0⟩ ∧
      '+' ∉ Timestamps.fmtSpace ⟨2026, 10, 12, 0, 0, 0⟩ := by
  decide

/-- C9 (amended): the timestamps persisted by `save_history`/`normalize_csv`
are ISO-8601 at second precision with the explicit UTC designator `Z`, and
for either persisted format the lexicographic (textual) order of two
formatted instants coincides with their chronological order; but the
`now_utc_str`/get_spotify_stats.py writers use `"%Y-%m-%d %H:%M:%S"` with no
UTC designator. -/
theorem C9_persisted_timestamp_order (t1 t2 : Timestamps.DT)
    (h1 : Timestamps.valid t1) (h2 : Timestamps.valid t2) :
    Timestamps.strLt (Timestamps.fmtIsoZ t1) (Timestamps.fmtIsoZ t2) =
        Timestamps.dtLt t1 t2 ∧
    Timestamps.strLt (Timestamps.fmtSpace t1) (Timestamps.fmtSpace t2) =
        Timestamps.dtLt t1 t2 ∧
    (∃ u, Timestamps.fmtIsoZ t1 = u ++ ['Z']) ∧
    (Timestamps.fmtIsoZ t1).length = 20 := by
  refine ⟨Timestamps.strLt_fmtIsoZ t1 t2 h1 h2,
    Timestamps.strLt_fmtSpace t1 t2 h1 h2, ?_, ?_⟩
  · refine ⟨Timestamps.pad4 t1.year ++ '-' :: Timestamps.pad2 t1.month ++
      '-' :: Timestamps.pad2 t1.day ++ 'T' :: Timestamps.pad2 t1.hour ++
      ':' :: Timestamps.pad2 t1.minute ++ ':' :: Timestamps.pad2 t1.second, ?_⟩
    simp [Timestamps.fmtIsoZ, List.append_assoc]
  · simp [Timestamps.fmtIsoZ, Timestamps.pad4, Timestamps.pad2]

/-- C9 witness: two concrete valid instants, textual order of the persisted
strings equals chronological order. -/
theorem C9_persisted_timestamp_order_witness :
    Timestamps.strLt (Timestamps.fmtIsoZ ⟨2025, 1, 2, 3, 4, 5⟩)
        (Timestamps.fmtIsoZ ⟨2026, 10, 12, 0, 0, 0⟩) =
      Timestamps.dtLt ⟨2025, 1, 2, 3, 4, 5⟩ ⟨2026, 10, 12, 0, 0, 0⟩ :=
  (C9_persisted_timestamp_order ⟨2025, 1, 2, 3, 4, 5⟩ ⟨2026, 10, 12, 0, 0, 0⟩
      (by decide) (by decide)).1

end MusicData
